import Mathlib

/-!
Verification of the PDF processing pipeline of the SaaS-Platform repository
(Go microservice services/pdf-tool-go: internal/service PDF service,
internal/handlers PDF handlers, internal/config configuration).

Shallow embedding conventions:
- Go byte slices become `List Nat` (each entry one byte value).
- The filesystem visible to one request is a small state record `FS`:
  scratch files and scratch directories are keyed by the unique ids that
  os.CreateTemp / uuid.New generate (ids abstract the collision-free
  generated names; `next` is the id supply).  Creation events are recorded
  in a ghost `events` trace so that "never creates a scratch resource"
  claims are statable.
- Go `defer os.Remove`/`os.RemoveAll` is desugared to an explicit removal
  on every exit path of the embedded function (defers run on all exits;
  removals of distinct ids commute, so joint removal is order-irrelevant).
- Fallible system/library calls consult a failure oracle `orc : Nat → Bool`
  at the current step counter `tick`, covering every error-return path.
- The pdfcpu library calls (api.MergeCreateFile, api.SplitFile,
  api.OptimizeFile, api.AddWatermarksFile, pdfcpu ReadContext) are not part
  of this repository; their document-level semantics is modelled from the
  spec over a concrete executable PDF codec (`encodePDF` / `parsePDF`).
-/

set_option autoImplicit false

/-- A byte of a PDF blob.  Go `[]byte` entries; values of interest are
below 256 but nothing in the embedded logic depends on the bound. -/
abbrev Byte := Nat

/-- The ASCII signature that `ValidateRequest` compares the first four
bytes against: the characters of the literal string given in the source,
percent, P, D, F. -/
def pdfMagic : List Byte := [37, 80, 68, 70]

/-- Document information dictionary, the metadata fields named by the
spec data model (MetadataResult).  Field values are byte strings. -/
structure InfoDict where
  title : List Byte
  author : List Byte
  subject : List Byte
  creator : List Byte
  producer : List Byte
  creationDate : List Byte
  modDate : List Byte
deriving DecidableEq, Repr

/-- Modelled from the spec: the structural content of a PDF document that
a cheap structural parse recovers — the page list (page tree), the
optional information dictionary, and whether an encryption dictionary is
present.  Page contents are opaque byte strings. -/
structure PDFDoc where
  pages : List (List Byte)
  info : Option InfoDict
  encrypted : Bool
deriving DecidableEq, Repr

/-- Length-prefixed encoding of one byte string. -/
def encBytes (l : List Byte) : List Byte := l.length :: l

/-- Decoder for `encBytes`: reads a length, then that many bytes,
returning the decoded string and the remainder. -/
def decBytes : List Byte → Option (List Byte × List Byte)
  | [] => none
  | n :: rest => if n ≤ rest.length then some (rest.take n, rest.drop n) else none

/-- Concatenation of length-prefixed blocks. -/
def encBlocks (ps : List (List Byte)) : List Byte := (ps.map encBytes).flatten

/-- Decoder for a known number of length-prefixed blocks. -/
def decBlocks : Nat → List Byte → Option (List (List Byte) × List Byte)
  | 0, r => some ([], r)
  | n + 1, r =>
    match decBytes r with
    | none => none
    | some (x, r1) =>
      match decBlocks n r1 with
      | none => none
      | some (xs, r2) => some (x :: xs, r2)

/-- Encoding of the information dictionary: its seven fields in order. -/
def encInfo (i : InfoDict) : List Byte :=
  encBytes i.title ++ encBytes i.author ++ encBytes i.subject ++
  encBytes i.creator ++ encBytes i.producer ++ encBytes i.creationDate ++
  encBytes i.modDate

/-- Decoder for `encInfo`. -/
def decInfo (r : List Byte) : Option (InfoDict × List Byte) :=
  match decBytes r with
  | none => none
  | some (t, r1) =>
    match decBytes r1 with
    | none => none
    | some (a, r2) =>
      match decBytes r2 with
      | none => none
      | some (s, r3) =>
        match decBytes r3 with
        | none => none
        | some (c, r4) =>
          match decBytes r4 with
          | none => none
          | some (p, r5) =>
            match decBytes r5 with
            | none => none
            | some (cd, r6) =>
              match decBytes r6 with
              | none => none
              | some (md, r7) => some (⟨t, a, s, c, p, cd, md⟩, r7)

/-- Encoding of the encryption flag. -/
def encFlag (b : Bool) : List Byte := if b then [1] else [0]

/-- Decoder for `encFlag`. -/
def decFlag : List Byte → Option (Bool × List Byte)
  | 0 :: r => some (false, r)
  | 1 :: r => some (true, r)
  | _ => none

/-- Encoding of the optional information dictionary: presence tag then
the dictionary when present. -/
def encInfoOpt : Option InfoDict → List Byte
  | none => [0]
  | some i => 1 :: encInfo i

/-- Decoder for `encInfoOpt`. -/
def decInfoOpt : List Byte → Option (Option InfoDict × List Byte)
  | 0 :: r => some (none, r)
  | 1 :: r =>
    match decInfo r with
    | none => none
    | some (i, r1) => some (some i, r1)
  | _ => none

/-- Decoder for the page tree: page count then that many blocks. -/
def decPages : List Byte → Option (List (List Byte) × List Byte)
  | [] => none
  | n :: r => decBlocks n r

/-- Modelled from the spec: the byte form of a structurally valid PDF —
it starts with the `%PDF` signature and carries the encryption flag, the
optional info dictionary and the page tree in a decodable layout. -/
def encodePDF (d : PDFDoc) : List Byte :=
  pdfMagic ++ encFlag d.encrypted ++ encInfoOpt d.info ++
  (d.pages.length :: encBlocks d.pages)

/-- Modelled from the spec: the cheap structural parse (pdfcpu
ReadContext — reading the cross-reference table and page tree without
rendering), as the decoder of `encodePDF`.  Any byte sequence that does
not have the structure of an encoded document is unreadable (`none`). -/
def parsePDF (b : List Byte) : Option PDFDoc :=
  if b.take 4 = pdfMagic then
    match decFlag (b.drop 4) with
    | none => none
    | some (enc, r1) =>
      match decInfoOpt r1 with
      | none => none
      | some (info, r2) =>
        match decPages r2 with
        | none => none
        | some (pages, r3) => if r3 = [] then some ⟨pages, info, enc⟩ else none
  else none

/-- Page count of a blob under the structural parse. -/
def pdfPageCount (b : List Byte) : Option Nat :=
  (parsePDF b).map fun d => d.pages.length

/-! ## Configuration and validation (internal/config, service.ValidateRequest) -/

/-- PDF processing settings from `config.PDFConfig`.  Sizes are `int64` /
`int` in Go, embedded as `Int`.  The fields not consulted by any embedded
operation (AllowedFormats, TempDir, OCREnabled, OCRLanguages,
CompressionLevel) are omitted; TempDir only roots the generated scratch
names, which the `FS` model abstracts to unique ids. -/
structure PDFConfig where
  maxFileSize : Int
  maxPages : Int
deriving DecidableEq, Repr

/-- The distinct failure causes of `ValidateRequest`, one per distinct
error message the source constructs (spec names in parentheses):
PDF data is empty (EmptyInput); PDF file too large (TooLarge); invalid
PDF format (InvalidFormat). -/
inductive ValidationError
  | emptyInput
  | tooLarge
  | invalidFormat
deriving DecidableEq, Repr

/-- Embedding of `(s *PDFService) ValidateRequest(pdfData []byte) error`:
empty check, then size ceiling, then the four-byte `%PDF` signature
check (guarded by the length test exactly as in the source).  Returns
`none` on success. -/
def validateRequest (cfg : PDFConfig) (pdfData : List Byte) : Option ValidationError :=
  if pdfData.length = 0 then some .emptyInput
  else if (pdfData.length : Int) > cfg.maxFileSize then some .tooLarge
  else if pdfData.length < 4 ∨ pdfData.take 4 ≠ pdfMagic then some .invalidFormat
  else none

/-! ## Scratch filesystem state (createTempFile, defers, pdfcpu file calls) -/

/-- Ghost trace entries: scratch-resource creation and Transform Engine
entry (tracer span start of a service method). -/
inductive FsEvent
  | createdFile (id : Nat)
  | createdDir (id : Nat)
  | engine (op : String)
deriving DecidableEq, Repr

/-- The per-request view of the temp directory.  `files` are scratch
files directly under the temp root, `dirs` are scratch directories
together with the blobs written inside them (only SplitPDF uses one).
`next` supplies the unique generated name components (os.CreateTemp
random suffix / uuid.New), `tick` counts fallible system or library
calls for the failure oracle, `events` is the ghost trace. -/
structure FS where
  files : List (Nat × List Byte)
  dirs : List (Nat × List (List Byte))
  next : Nat
  tick : Nat
  events : List FsEvent
deriving DecidableEq, Repr

def FS.empty : FS := ⟨[], [], 0, 0, []⟩

/-- Record the start of a Transform Engine operation (tracer.Start).
Log/span attribute payloads (page range, compression level and the
like) are observability-only and not modelled. -/
def FS.engineEvent (st : FS) (op : String) : FS :=
  { st with events := st.events ++ [.engine op] }

/-- Advance the fallible-call counter. -/
def FS.tickInc (st : FS) : FS := { st with tick := st.tick + 1 }

/-- Allocate a generated unique name without creating anything yet
(filepath.Join of the temp dir with a fresh uuid suffix). -/
def FS.allocName (st : FS) : FS := { st with next := st.next + 1 }

/-- A library call writes a file at an already-allocated id. -/
def FS.addFile (st : FS) (id : Nat) (data : List Byte) : FS :=
  { st with files := (id, data) :: st.files,
            events := st.events ++ [.createdFile id] }

/-- A library call fills a scratch directory with blobs (the split page
files).  Read-back returns them in ascending page order; see `libSplit`. -/
def FS.setDir (st : FS) (id : Nat) (pages : List (List Byte)) : FS :=
  { st with dirs := (id, pages) :: st.dirs.filter (fun d => d.1 != id) }

/-- `os.Remove` of a scratch file (best effort, errors ignored). -/
def removeFile (id : Nat) (st : FS) : FS :=
  { st with files := st.files.filter (fun f => f.1 != id) }

/-- Joint removal of a list of scratch files: the per-iteration
`defer os.Remove(tempFile)` calls of the merge loop, which commute. -/
def removeFiles (ids : List Nat) (st : FS) : FS :=
  { st with files := st.files.filter (fun f => !(ids.contains f.1)) }

/-- `os.RemoveAll` of a scratch directory. -/
def removeDir (id : Nat) (st : FS) : FS :=
  { st with dirs := st.dirs.filter (fun d => d.1 != id) }

def lookupFile (id : Nat) (st : FS) : Option (List Byte) :=
  (st.files.find? (fun f => f.1 == id)).map (fun f => f.2)

def lookupDir (id : Nat) (st : FS) : Option (List (List Byte)) :=
  (st.dirs.find? (fun d => d.1 == id)).map (fun d => d.2)

/-- Embedding of `createTempFile`: one fallible step covering MkdirAll of
the temp root, os.CreateTemp and the data write.  On failure no scratch
file remains (the source removes the partial file when the write fails);
on success the fresh id holds the data.  The temp root directory itself
is outside the scratch accounting (it persists by design). -/
def createFile (orc : Nat → Bool) (data : List Byte) (st : FS) : Option Nat × FS :=
  if orc st.tick then (none, st.tickInc)
  else (some st.next,
    { st with files := (st.next, data) :: st.files,
              next := st.next + 1,
              tick := st.tick + 1,
              events := st.events ++ [.createdFile st.next] })

/-- Embedding of `os.MkdirAll(outputDir, 0755)` for the split output
directory at a fresh uuid-based name. -/
def createDir (orc : Nat → Bool) (st : FS) : Option Nat × FS :=
  if orc st.tick then (none, st.tickInc)
  else (some st.next,
    { st with dirs := (st.next, []) :: st.dirs,
              next := st.next + 1,
              tick := st.tick + 1,
              events := st.events ++ [.createdDir st.next] })

/-- `os.ReadFile` of a scratch file: fallible, then a lookup. -/
def readFile (orc : Nat → Bool) (id : Nat) (st : FS) : Option (List Byte) × FS :=
  if orc st.tick then (none, st.tickInc)
  else (lookupFile id st, st.tickInc)

/-- The split read-back: `filepath.Glob` over the output directory plus
the per-file `os.ReadFile` loop, collapsed into one fallible step that
returns the directory contents. -/
def readDir (orc : Nat → Bool) (id : Nat) (st : FS) : Option (List (List Byte)) × FS :=
  if orc st.tick then (none, st.tickInc)
  else (lookupDir id st, st.tickInc)

/-! ## Library semantics (pdfcpu, modelled from the spec) -/

/-- Structural parse of every input, in order; any unreadable input makes
the whole merge fail. -/
def parseAll : List (List Byte) → Option (List PDFDoc)
  | [] => some []
  | b :: bs =>
    match parsePDF b, parseAll bs with
    | some d, some ds => some (d :: ds)
    | _, _ => none

/-- Modelled from the spec: the document-level effect of pdfcpu
`api.MergeCreateFile` — the output page list is the concatenation of the
input page lists in input-file order, with no reordering and no
deduplication; a malformed input fails the merge. -/
def mergeSem (inputs : List (List Byte)) : Option (List Byte) :=
  match parseAll inputs with
  | none => none
  | some ds => some (encodePDF ⟨(ds.map (fun d => d.pages)).flatten, none, false⟩)

/-- Modelled from the spec: the document-level effect of pdfcpu
`api.SplitFile(·, ·, 1, nil)` — one single-page output document per page
of the source, in ascending page order. -/
def splitSem (input : List Byte) : Option (List (List Byte)) :=
  match parsePDF input with
  | none => none
  | some d => some (d.pages.map fun p => encodePDF ⟨[p], none, false⟩)

/-- Modelled from the spec: pdfcpu `api.OptimizeFile` — a structural
rewrite that never changes page count or visible content; the model
re-encodes the parsed document. -/
def optimizeSem (input : List Byte) : Option (List Byte) :=
  match parsePDF input with
  | none => none
  | some d => some (encodePDF d)

/-- Modelled from the spec: pdfcpu `ParseTextWatermarkDetails` — parsing
the textual watermark specification, failing on a malformed (empty)
specification. -/
def parseWatermark (text : List Byte) : Option (List Byte) :=
  if text = [] then none else some text

/-- Modelled from the spec: pdfcpu `api.AddWatermarksFile` — overlays the
watermark text on every page, never altering the page count; the model
appends the watermark bytes to each page content. -/
def watermarkSem (wm : List Byte) (input : List Byte) : Option (List Byte) :=
  match parsePDF input with
  | none => none
  | some d => some (encodePDF ⟨d.pages.map (fun p => p ++ wm), d.info, d.encrypted⟩)

/-- The merge library call: fallible, reads the scratch inputs, applies
`mergeSem`, writes the output file at the pre-allocated id. -/
def libMerge (orc : Nat → Bool) (ids : List Nat) (outId : Nat) (st : FS) :
    Option Unit × FS :=
  if orc st.tick then (none, st.tickInc)
  else
    match readAllFiles ids st with
    | none => (none, st.tickInc)
    | some inputs =>
      match mergeSem inputs with
      | none => (none, st.tickInc)
      | some out => (some (), (st.tickInc).addFile outId out)
where
  readAllFiles : List Nat → FS → Option (List (List Byte))
    | [], _ => some []
    | id :: rest, st =>
      match lookupFile id st, readAllFiles rest st with
      | some c, some cs => some (c :: cs)
      | _, _ => none

/-- The split library call: fallible, reads the scratch input, applies
`splitSem` and fills the output directory with the page files. -/
def libSplit (orc : Nat → Bool) (tf dir : Nat) (st : FS) : Option Unit × FS :=
  if orc st.tick then (none, st.tickInc)
  else
    match lookupFile tf st with
    | none => (none, st.tickInc)
    | some content =>
      match splitSem content with
      | none => (none, st.tickInc)
      | some pages => (some (), (st.tickInc).setDir dir pages)

/-- The optimize library call (CompressPDF): fallible, reads the scratch
input, applies `optimizeSem`, writes the output file. -/
def libOptimize (orc : Nat → Bool) (tf outId : Nat) (st : FS) : Option Unit × FS :=
  if orc st.tick then (none, st.tickInc)
  else
    match lookupFile tf st with
    | none => (none, st.tickInc)
    | some content =>
      match optimizeSem content with
      | none => (none, st.tickInc)
      | some out => (some (), (st.tickInc).addFile outId out)

/-- The watermark library call: fallible, reads the scratch input,
applies `watermarkSem`, writes the output file. -/
def libWatermark (orc : Nat → Bool) (wm : List Byte) (tf outId : Nat) (st : FS) :
    Option Unit × FS :=
  if orc st.tick then (none, st.tickInc)
  else
    match lookupFile tf st with
    | none => (none, st.tickInc)
    | some content =>
      match watermarkSem wm content with
      | none => (none, st.tickInc)
      | some out => (some (), (st.tickInc).addFile outId out)

/-! ## Service operations (internal/service/pdf.go) -/

/-- The distinct failure causes the service constructs, one per distinct
`fmt.Errorf` message in the source. -/
inductive PDFError
  | insufficientInput    -- at least 2 PDFs required for merging
  | tempFileFailed       -- failed to create temp file
  | mkdirFailed          -- failed to create output directory
  | mergeFailed          -- failed to merge PDFs
  | splitFailed          -- failed to split PDF
  | compressFailed       -- failed to compress PDF
  | watermarkParseFailed -- failed to parse watermark
  | watermarkFailed      -- failed to add watermark
  | readContextFailed    -- failed to read PDF context / failed to read PDF
  | readBackFailed       -- failed to read the produced output back
deriving DecidableEq, Repr

structure ConvertToImageRequest where
  PDFData : List Byte
  Format : String
  DPI : Int
  PageRange : String
  Quality : Int
deriving DecidableEq, Repr

structure ConvertToImageResponse where
  Images : List (List Byte)
  PageCount : Nat
  Format : String
deriving DecidableEq, Repr

structure MergeRequest where
  PDFs : List (List Byte)
  OutputName : String
deriving DecidableEq, Repr

structure SplitRequest where
  PDFData : List Byte
  PageRange : String
deriving DecidableEq, Repr

structure ExtractTextRequest where
  PDFData : List Byte
  UseOCR : Bool
deriving DecidableEq, Repr

/-- PageText entries: page number and text. -/
structure ExtractTextResponse where
  Text : List Byte
  PageCount : Nat
  Pages : List (Nat × List Byte)
deriving DecidableEq, Repr

structure MetadataResponse where
  Title : List Byte
  Author : List Byte
  Subject : List Byte
  Creator : List Byte
  Producer : List Byte
  CreationDate : List Byte
  ModDate : List Byte
  PageCount : Nat
  FileSize : Nat
  Encrypted : Bool
deriving DecidableEq, Repr

structure CompressRequest where
  PDFData : List Byte
  CompressionLevel : Int
deriving DecidableEq, Repr

/-- Opacity is a float64 in Go; it is never read by the source operation
(only WatermarkText reaches the library), so it is omitted here. -/
structure WatermarkRequest where
  PDFData : List Byte
  WatermarkText : List Byte
  Rotation : Int
  FontSize : Int
deriving DecidableEq, Repr

/-- The bytes of the Go string literal Document Title. -/
def docTitlePlaceholder : List Byte :=
  [68, 111, 99, 117, 109, 101, 110, 116, 32, 84, 105, 116, 108, 101]

/-- The bytes of the Go string literal Document Author. -/
def docAuthorPlaceholder : List Byte :=
  [68, 111, 99, 117, 109, 101, 110, 116, 32, 65, 117, 116, 104, 111, 114]

/-- Embedding of `ConvertToImage`: span, temp file for the input,
deferred removal; the conversion itself is a TODO in the source, so the
response is always empty with page count 0 echoing the requested
format. -/
def convertToImage (orc : Nat → Bool) (req : ConvertToImageRequest) (st : FS) :
    Except PDFError ConvertToImageResponse × FS :=
  let st := st.engineEvent "ConvertToImage"
  match createFile orc req.PDFData st with
  | (none, st) => (.error .tempFileFailed, st)
  | (some tf, st) => (.ok ⟨[], 0, req.Format⟩, removeFile tf st)

/-- The merge input loop: one temp file per input blob, preserving input
order; on a creation failure the loop stops with the ids created so far
(their deferred removals are still pending at the caller). -/
def createAllFiles (orc : Nat → Bool) :
    List (List Byte) → FS → (List Nat × Option PDFError) × FS
  | [], st => (([], none), st)
  | b :: bs, st =>
    match createFile orc b st with
    | (none, st) => (([], some .tempFileFailed), st)
    | (some id, st) =>
      match createAllFiles orc bs st with
      | ((ids, e), st) => ((id :: ids, e), st)

/-- Embedding of `MergePDFs`: the two-input precondition, the input temp
files in input order, the allocated output name, the merge library call,
the read-back; every exit runs the deferred removals (output file first,
then the inputs, matching the LIFO defers; the removals commute). -/
def mergePDFs (orc : Nat → Bool) (req : MergeRequest) (st : FS) :
    Except PDFError (List Byte) × FS :=
  let st := st.engineEvent "MergePDFs"
  if req.PDFs.length < 2 then (.error .insufficientInput, st)
  else
    match createAllFiles orc req.PDFs st with
    | ((ids, some e), st) => (.error e, removeFiles ids st)
    | ((ids, none), st) =>
      let outId := st.next
      let st := st.allocName
      match libMerge orc ids outId st with
      | (none, st) => (.error .mergeFailed, removeFiles ids (removeFile outId st))
      | (some _, st) =>
        match readFile orc outId st with
        | (none, st) => (.error .readBackFailed, removeFiles ids (removeFile outId st))
        | (some data, st) => (.ok data, removeFiles ids (removeFile outId st))

/-- The tail of `SplitPDF` once the input temp file `tf` and the output
directory `dir` exist: the split library call and the glob read-back,
with the deferred removals (directory first, then the temp file) run on
every exit.  Split out of `splitPDF` for compositional proofs. -/
def splitCore (orc : Nat → Bool) (tf dir : Nat) (st : FS) :
    Except PDFError (List (List Byte)) × FS :=
  match libSplit orc tf dir st with
  | (none, st) => (.error .splitFailed, removeFile tf (removeDir dir st))
  | (some _, st) =>
    match readDir orc dir st with
    | (none, st) => (.error .readBackFailed, removeFile tf (removeDir dir st))
    | (some blobs, st) => (.ok blobs, removeFile tf (removeDir dir st))

/-- Embedding of `SplitPDF`: input temp file, fresh output directory,
then `splitCore`.  The source reads `req.PageRange` only for logging,
never for the computation. -/
def splitPDF (orc : Nat → Bool) (req : SplitRequest) (st : FS) :
    Except PDFError (List (List Byte)) × FS :=
  let st := st.engineEvent "SplitPDF"
  match createFile orc req.PDFData st with
  | (none, st) => (.error .tempFileFailed, st)
  | (some tf, st) =>
    match createDir orc st with
    | (none, st) => (.error .mkdirFailed, removeFile tf st)
    | (some dir, st) => splitCore orc tf dir st

/-- Embedding of `ExtractText`: a temp file is created (and later
removed) but the parse works on the in-memory bytes; the extraction
itself is a TODO in the source, so text and per-page list are empty and
only the page count is real. -/
def extractText (orc : Nat → Bool) (req : ExtractTextRequest) (st : FS) :
    Except PDFError ExtractTextResponse × FS :=
  let st := st.engineEvent "ExtractText"
  match createFile orc req.PDFData st with
  | (none, st) => (.error .tempFileFailed, st)
  | (some tf, st) =>
    match parsePDF req.PDFData with
    | none => (.error .readContextFailed, removeFile tf st)
    | some d => (.ok ⟨[], d.pages.length, []⟩, removeFile tf st)

/-- Embedding of `ExtractMetadata`: purely in-memory (no scratch
resources).  Mirrors the source faithfully, including the hardcoded
placeholder Title and Author that are set whenever an info dictionary is
present, while the remaining info fields are left at their zero
values. -/
def extractMetadata (pdfData : List Byte) : Except PDFError MetadataResponse :=
  match parsePDF pdfData with
  | none => .error .readContextFailed
  | some d =>
    .ok { Title := if d.info.isSome then docTitlePlaceholder else []
          Author := if d.info.isSome then docAuthorPlaceholder else []
          Subject := []
          Creator := []
          Producer := []
          CreationDate := []
          ModDate := []
          PageCount := d.pages.length
          FileSize := pdfData.length
          Encrypted := d.encrypted }

/-- The tail of `CompressPDF` once the input temp file `tf` exists and
the output name `outId` is allocated: the optimize library call and the
read-back, with the deferred removals (output first, then the temp
file) run on every exit.  Split out of `compressPDF` for compositional
proofs. -/
def compressCore (orc : Nat → Bool) (tf outId : Nat) (st : FS) :
    Except PDFError (List Byte) × FS :=
  match libOptimize orc tf outId st with
  | (none, st) => (.error .compressFailed, removeFile tf (removeFile outId st))
  | (some _, st) =>
    match readFile orc outId st with
    | (none, st) => (.error .readBackFailed, removeFile tf (removeFile outId st))
    | (some data, st) => (.ok data, removeFile tf (removeFile outId st))

/-- Embedding of `CompressPDF`: input temp file, allocated output name,
then `compressCore`.  The source reads `req.CompressionLevel` only for
the span attribute and the log line: the library call receives a nil
configuration. -/
def compressPDF (orc : Nat → Bool) (req : CompressRequest) (st : FS) :
    Except PDFError (List Byte) × FS :=
  let st := st.engineEvent "CompressPDF"
  match createFile orc req.PDFData st with
  | (none, st) => (.error .tempFileFailed, st)
  | (some tf, st) =>
    let outId := st.next
    let st := st.allocName
    compressCore orc tf outId st

/-- The tail of `AddWatermark` once the input temp file `tf` exists and
the output name `outId` is allocated: the watermark specification
parse, the watermark library call and the read-back, with the deferred
removals run on every exit.  Split out of `addWatermark` for
compositional proofs. -/
def watermarkCore (orc : Nat → Bool) (text : List Byte) (tf outId : Nat)
    (st : FS) : Except PDFError (List Byte) × FS :=
  match parseWatermark text with
  | none => (.error .watermarkParseFailed, removeFile tf (removeFile outId st))
  | some wm =>
    match libWatermark orc wm tf outId st with
    | (none, st) => (.error .watermarkFailed, removeFile tf (removeFile outId st))
    | (some _, st) =>
      match readFile orc outId st with
      | (none, st) => (.error .readBackFailed, removeFile tf (removeFile outId st))
      | (some data, st) => (.ok data, removeFile tf (removeFile outId st))

/-- Embedding of `AddWatermark`: input temp file, allocated output name,
then `watermarkCore`. -/
def addWatermark (orc : Nat → Bool) (req : WatermarkRequest) (st : FS) :
    Except PDFError (List Byte) × FS :=
  let st := st.engineEvent "AddWatermark"
  match createFile orc req.PDFData st with
  | (none, st) => (.error .tempFileFailed, st)
  | (some tf, st) =>
    let outId := st.next
    let st := st.allocName
    watermarkCore orc req.WatermarkText tf outId st

/-! ## Request handlers (internal/handlers/pdf.go)

Each handler is embedded from the point where the uploaded bytes are in
hand (multipart decoding and upload-read failures are upstream of the
pipeline under specification). -/

/-- A 400-class boundary rejection: either a `ValidateRequest` failure or
the merge handler precondition message At least 2 PDFs required. -/
inductive ReqError
  | validation (e : ValidationError)
  | insufficientInput
deriving DecidableEq, Repr

/-- The externally visible outcome of one handler invocation:
400 with an error body, 500 on an engine failure, or 200. -/
inductive HandlerOut (α : Type)
  | badRequest (e : ReqError)
  | serverError (e : PDFError)
  | ok (v : α)
deriving DecidableEq, Repr

/-- ConvertToImage handler: the only handler that calls
`ValidateRequest` before invoking the service. -/
def convertHandler (orc : Nat → Bool) (cfg : PDFConfig) (pdfData : List Byte)
    (format : String) (dpi : Int) (st : FS) :
    HandlerOut ConvertToImageResponse × FS :=
  match validateRequest cfg pdfData with
  | some e => (.badRequest (.validation e), st)
  | none =>
    match convertToImage orc ⟨pdfData, format, dpi, "", 0⟩ st with
    | (.error e, st) => (.serverError e, st)
    | (.ok r, st) => (.ok r, st)

/-- MergePDFs handler: boundary precondition on the file count, then the
service call; no `ValidateRequest` call in the source. -/
def mergeHandler (orc : Nat → Bool) (files : List (List Byte)) (st : FS) :
    HandlerOut (List Byte) × FS :=
  if files.length < 2 then (.badRequest .insufficientInput, st)
  else
    match mergePDFs orc ⟨files, ""⟩ st with
    | (.error e, st) => (.serverError e, st)
    | (.ok r, st) => (.ok r, st)

/-- SplitPDF handler: no `ValidateRequest` call in the source; the pages
query parameter defaults to all. -/
def splitHandler (orc : Nat → Bool) (pdfData : List Byte) (pages : String)
    (st : FS) : HandlerOut (List (List Byte)) × FS :=
  match splitPDF orc ⟨pdfData, pages⟩ st with
  | (.error e, st) => (.serverError e, st)
  | (.ok r, st) => (.ok r, st)

/-- ExtractText handler: no `ValidateRequest` call in the source. -/
def extractTextHandler (orc : Nat → Bool) (pdfData : List Byte) (ocr : Bool)
    (st : FS) : HandlerOut ExtractTextResponse × FS :=
  match extractText orc ⟨pdfData, ocr⟩ st with
  | (.error e, st) => (.serverError e, st)
  | (.ok r, st) => (.ok r, st)

/-- ExtractMetadata handler: no `ValidateRequest` call in the source;
the service itself touches no scratch resources. -/
def extractMetadataHandler (pdfData : List Byte) (st : FS) :
    HandlerOut MetadataResponse × FS :=
  match extractMetadata pdfData with
  | .error e => (.serverError e, st)
  | .ok r => (.ok r, st)

/-- CompressPDF handler: no `ValidateRequest` call in the source; the
level query parameter defaults to 1. -/
def compressHandler (orc : Nat → Bool) (pdfData : List Byte) (level : Int)
    (st : FS) : HandlerOut (List Byte) × FS :=
  match compressPDF orc ⟨pdfData, level⟩ st with
  | (.error e, st) => (.serverError e, st)
  | (.ok r, st) => (.ok r, st)

/-- AddWatermark handler: no `ValidateRequest` call in the source; the
fixed opacity, rotation and font size the source fills in are the ones
never read by the service. -/
def watermarkHandler (orc : Nat → Bool) (pdfData : List Byte)
    (text : List Byte) (st : FS) : HandlerOut (List Byte) × FS :=
  match addWatermark orc ⟨pdfData, text, 45, 48⟩ st with
  | (.error e, st) => (.serverError e, st)
  | (.ok r, st) => (.ok r, st)

/-! ## Invariant, oracles and concrete inputs -/

/-- Well-formedness of the scratch state: every scratch id in use is
below the id supply, so freshly generated ids never collide — the
unique-naming guarantee of os.CreateTemp and uuid.New. -/
def FsInv (st : FS) : Prop :=
  (∀ f ∈ st.files, f.1 < st.next) ∧ (∀ d ∈ st.dirs, d.1 < st.next)

instance (st : FS) : Decidable (FsInv st) := by
  unfold FsInv; infer_instance

/-- The oracle with no injected system or library failures. -/
def noFail : Nat → Bool := fun _ => false

/-- A tiny two-page document used as concrete input. -/
def docTwoPages : PDFDoc := ⟨[[10], [20]], none, false⟩

/-- A three-page document used as concrete input. -/
def docThreePages : PDFDoc := ⟨[[1], [2], [3]], none, false⟩

/-- A one-page document used as concrete input. -/
def docOnePage : PDFDoc := ⟨[[7]], none, false⟩

/-- A document with an information dictionary whose title is the single
byte 88 (the character X) and whose author is the byte 89 (Y). -/
def docWithInfo : PDFDoc :=
  ⟨[[7]], some ⟨[88], [89], [], [], [], [], []⟩, false⟩

/-- A configuration with a page ceiling of 1 and an ample size ceiling. -/
def cfgOnePage : PDFConfig := ⟨1000, 1⟩

/-- The first bytes of a GIF file: G, I, F, 8, 9, a. -/
def gifBytes : List Byte := [71, 73, 70, 56, 57, 97]

/-! ## Codec roundtrip -/

theorem decBytes_enc (l r : List Byte) : decBytes (encBytes l ++ r) = some (l, r) := by
  have h : l.length ≤ (l ++ r).length := by simp
  simp [encBytes, decBytes, h]

theorem decBlocks_enc (ps : List (List Byte)) :
    ∀ r, decBlocks ps.length (encBlocks ps ++ r) = some (ps, r) := by
  induction ps with
  | nil => intro r; simp [encBlocks, decBlocks]
  | cons p ps ih =>
    intro r
    have he : encBlocks (p :: ps) = encBytes p ++ encBlocks ps := by
      simp [encBlocks]
    simp [he, decBlocks, List.append_assoc, decBytes_enc, ih]

theorem decInfo_enc (i : InfoDict) (r : List Byte) :
    decInfo (encInfo i ++ r) = some (i, r) := by
  simp [encInfo, decInfo, List.append_assoc, decBytes_enc]

theorem decFlag_enc (b : Bool) (r : List Byte) :
    decFlag (encFlag b ++ r) = some (b, r) := by
  cases b <;> rfl

theorem decInfoOpt_enc (o : Option InfoDict) (r : List Byte) :
    decInfoOpt (encInfoOpt o ++ r) = some (o, r) := by
  cases o with
  | none => rfl
  | some i => simp [encInfoOpt, decInfoOpt, decInfo_enc]

theorem parse_encode (d : PDFDoc) : parsePDF (encodePDF d) = some d := by
  have hb := decBlocks_enc d.pages []
  rw [List.append_nil] at hb
  have hm : pdfMagic.length = 4 := rfl
  unfold encodePDF parsePDF
  simp only [List.append_assoc]
  rw [← hm, List.take_left, if_pos rfl, List.drop_left, decFlag_enc]
  simp [decInfoOpt_enc, decPages, hb]

/-! ## Scratch-state helper lemmas -/

theorem filter_fst_ne {β : Type} (l : List (Nat × β)) (m : Nat)
    (h : ∀ f ∈ l, f.1 ≠ m) : l.filter (fun f => f.1 != m) = l := by
  rw [List.filter_eq_self]
  intro a ha
  simpa using h a ha

theorem filter_fst_lt {β : Type} (l : List (Nat × β)) (n m : Nat)
    (h : ∀ f ∈ l, f.1 < n) (hnm : n ≤ m) : l.filter (fun f => f.1 != m) = l :=
  filter_fst_ne l m fun f hf => Nat.ne_of_lt (lt_of_lt_of_le (h f hf) hnm)

theorem filter_not_contains {β : Type} (l : List (Nat × β)) (ids : List Nat)
    (n : Nat) (h : ∀ f ∈ l, f.1 < n) (hids : ∀ i ∈ ids, n ≤ i) :
    l.filter (fun f => !(ids.contains f.1)) = l := by
  rw [List.filter_eq_self]
  intro a ha
  simp only [Bool.not_eq_true', ← Bool.not_eq_true]
  intro hc
  have hmem : a.1 ∈ ids := by
    simpa [List.elem_iff] using hc
  exact absurd rfl (Nat.ne_of_lt (lt_of_lt_of_le (h a ha) (hids a.1 hmem)))

@[simp] theorem FS.engineEvent_files (st : FS) (s : String) :
    (st.engineEvent s).files = st.files := rfl
@[simp] theorem FS.engineEvent_dirs (st : FS) (s : String) :
    (st.engineEvent s).dirs = st.dirs := rfl
@[simp] theorem FS.engineEvent_next (st : FS) (s : String) :
    (st.engineEvent s).next = st.next := rfl
@[simp] theorem FS.engineEvent_tick (st : FS) (s : String) :
    (st.engineEvent s).tick = st.tick := rfl

@[simp] theorem FS.tickInc_files (st : FS) : st.tickInc.files = st.files := rfl
@[simp] theorem FS.tickInc_dirs (st : FS) : st.tickInc.dirs = st.dirs := rfl
@[simp] theorem FS.tickInc_next (st : FS) : st.tickInc.next = st.next := rfl
@[simp] theorem FS.tickInc_events (st : FS) : st.tickInc.events = st.events := rfl

@[simp] theorem FS.allocName_files (st : FS) : st.allocName.files = st.files := rfl
@[simp] theorem FS.allocName_dirs (st : FS) : st.allocName.dirs = st.dirs := rfl
@[simp] theorem FS.allocName_next (st : FS) : st.allocName.next = st.next + 1 := rfl
@[simp] theorem FS.allocName_tick (st : FS) : st.allocName.tick = st.tick := rfl
@[simp] theorem FS.allocName_events (st : FS) : st.allocName.events = st.events := rfl

@[simp] theorem FS.addFile_files (st : FS) (id : Nat) (d : List Byte) :
    (st.addFile id d).files = (id, d) :: st.files := rfl
@[simp] theorem FS.addFile_dirs (st : FS) (id : Nat) (d : List Byte) :
    (st.addFile id d).dirs = st.dirs := rfl
@[simp] theorem FS.addFile_next (st : FS) (id : Nat) (d : List Byte) :
    (st.addFile id d).next = st.next := rfl

@[simp] theorem FS.setDir_files (st : FS) (id : Nat) (ps : List (List Byte)) :
    (st.setDir id ps).files = st.files := rfl
@[simp] theorem FS.setDir_next (st : FS) (id : Nat) (ps : List (List Byte)) :
    (st.setDir id ps).next = st.next := rfl

@[simp] theorem removeFile_dirs (id : Nat) (st : FS) :
    (removeFile id st).dirs = st.dirs := rfl
@[simp] theorem removeFile_files (id : Nat) (st : FS) :
    (removeFile id st).files = st.files.filter (fun f => f.1 != id) := rfl
@[simp] theorem removeFiles_dirs (ids : List Nat) (st : FS) :
    (removeFiles ids st).dirs = st.dirs := rfl
@[simp] theorem removeFiles_files (ids : List Nat) (st : FS) :
    (removeFiles ids st).files = st.files.filter (fun f => !(ids.contains f.1)) := rfl
@[simp] theorem removeDir_files (id : Nat) (st : FS) :
    (removeDir id st).files = st.files := rfl
@[simp] theorem removeDir_dirs (id : Nat) (st : FS) :
    (removeDir id st).dirs = st.dirs.filter (fun d => d.1 != id) := rfl

theorem FsInv.engineEvent {st : FS} (h : FsInv st) (s : String) :
    FsInv (st.engineEvent s) := h

theorem filter_contains_cons {β : Type} (l : List (Nat × β)) (n : Nat)
    (ids : List Nat) :
    l.filter (fun f => !((n :: ids).contains f.1)) =
    (l.filter (fun f => !(ids.contains f.1))).filter (fun f => f.1 != n) := by
  rw [List.filter_filter]
  apply List.filter_congr
  intro a _
  simp only [List.contains_cons, Bool.not_or, bne]

theorem createAllFiles_spec (orc : Nat → Bool) (bs : List (List Byte)) :
    ∀ (st : FS) (ids : List Nat) (e : Option PDFError) (st' : FS),
      FsInv st → createAllFiles orc bs st = ((ids, e), st') →
      FsInv st' ∧ st.next ≤ st'.next ∧ st'.dirs = st.dirs ∧
      (∀ i ∈ ids, st.next ≤ i ∧ i < st'.next) ∧
      st'.files.filter (fun f => !(ids.contains f.1)) = st.files := by
  induction bs with
  | nil =>
    intro st ids e st' hInv heq
    simp [createAllFiles] at heq
    obtain ⟨⟨hids, _⟩, hst⟩ := heq
    subst hids; subst hst
    exact ⟨hInv, le_refl _, rfl, by simp, by simp⟩
  | cons b bs ih =>
    intro st ids e st' hInv heq
    by_cases ho : orc st.tick
    · simp [createAllFiles, createFile, ho] at heq
      obtain ⟨⟨hids, _⟩, hst⟩ := heq
      subst hids; subst hst
      exact ⟨hInv, le_refl _, rfl, by simp, by simp⟩
    · rcases hca : createAllFiles orc bs
        { st with files := (st.next, b) :: st.files,
                  next := st.next + 1, tick := st.tick + 1,
                  events := st.events ++ [.createdFile st.next] }
        with ⟨⟨ids2, e2⟩, st2⟩
      simp [createAllFiles, createFile, ho, hca] at heq
      obtain ⟨⟨hids, _⟩, hst⟩ := heq
      subst hids; subst hst
      have hInv1 : FsInv
          { st with files := (st.next, b) :: st.files,
                    next := st.next + 1, tick := st.tick + 1,
                    events := st.events ++ [.createdFile st.next] } := by
        obtain ⟨hf, hd⟩ := hInv
        constructor
        · intro f hf2
          rcases List.mem_cons.mp hf2 with h1 | h2
          · simp [h1]
          · exact Nat.lt_succ_of_lt (hf _ h2)
        · intro d hd2
          exact Nat.lt_succ_of_lt (hd _ hd2)
      obtain ⟨hInv2, hle2, hdirs2, hids2, hfil2⟩ :=
        ih _ ids2 e2 st2 hInv1 hca
      refine ⟨hInv2, ?_, hdirs2, ?_, ?_⟩
      · exact le_trans (Nat.le_succ _) hle2
      · intro i hi
        rcases List.mem_cons.mp hi with h1 | h2
        · subst h1
          exact ⟨le_refl _, lt_of_lt_of_le (Nat.lt_succ_self _) hle2⟩
        · obtain ⟨ha, hb⟩ := hids2 i h2
          exact ⟨le_trans (Nat.le_succ _) ha, hb⟩
      · rw [filter_contains_cons, hfil2]
        simp only [List.filter_cons]
        have hne : (st.next != st.next) = false := by simp
        simp only [hne, Bool.false_eq_true, if_false]
        exact filter_fst_lt st.files st.next st.next hInv.1 (le_refl _)

theorem libMerge_state (orc : Nat → Bool) (ids : List Nat) (outId : Nat)
    (st : FS) :
    (libMerge orc ids outId st).2.dirs = st.dirs ∧
    (libMerge orc ids outId st).2.next = st.next ∧
    ((libMerge orc ids outId st).2.files = st.files ∨
      ∃ out, (libMerge orc ids outId st).2.files = (outId, out) :: st.files) := by
  unfold libMerge
  by_cases ho : orc st.tick
  · simp [ho]
  · cases hr : libMerge.readAllFiles ids st with
    | none => simp [ho, hr]
    | some inputs =>
      cases hm : mergeSem inputs with
      | none => simp [ho, hr, hm]
      | some out =>
        simp only [ho, if_false, hr, hm]
        exact ⟨rfl, rfl, Or.inr ⟨out, rfl⟩⟩

theorem libSplit_state (orc : Nat → Bool) (tf dir : Nat) (st : FS) :
    (libSplit orc tf dir st).2.files = st.files ∧
    (libSplit orc tf dir st).2.next = st.next ∧
    ((libSplit orc tf dir st).2.dirs = st.dirs ∨
      ∃ pages, (libSplit orc tf dir st).2.dirs =
        (dir, pages) :: st.dirs.filter (fun d => d.1 != dir)) := by
  unfold libSplit
  by_cases ho : orc st.tick
  · simp [ho]
  · cases hr : lookupFile tf st with
    | none => simp [ho, hr]
    | some content =>
      cases hs : splitSem content with
      | none => simp [ho, hr, hs]
      | some pages =>
        simp only [ho, if_false, hr, hs]
        exact ⟨rfl, rfl, Or.inr ⟨pages, rfl⟩⟩

theorem libOptimize_state (orc : Nat → Bool) (tf outId : Nat) (st : FS) :
    (libOptimize orc tf outId st).2.dirs = st.dirs ∧
    (libOptimize orc tf outId st).2.next = st.next ∧
    ((libOptimize orc tf outId st).2.files = st.files ∨
      ∃ out, (libOptimize orc tf outId st).2.files = (outId, out) :: st.files) := by
  unfold libOptimize
  by_cases ho : orc st.tick
  · simp [ho]
  · cases hr : lookupFile tf st with
    | none => simp [ho, hr]
    | some content =>
      cases hm : optimizeSem content with
      | none => simp [ho, hr, hm]
      | some out =>
        simp only [ho, if_false, hr, hm]
        exact ⟨rfl, rfl, Or.inr ⟨out, rfl⟩⟩

theorem libWatermark_state (orc : Nat → Bool) (wm : List Byte) (tf outId : Nat)
    (st : FS) :
    (libWatermark orc wm tf outId st).2.dirs = st.dirs ∧
    (libWatermark orc wm tf outId st).2.next = st.next ∧
    ((libWatermark orc wm tf outId st).2.files = st.files ∨
      ∃ out, (libWatermark orc wm tf outId st).2.files = (outId, out) :: st.files) := by
  unfold libWatermark
  by_cases ho : orc st.tick
  · simp [ho]
  · cases hr : lookupFile tf st with
    | none => simp [ho, hr]
    | some content =>
      cases hm : watermarkSem wm content with
      | none => simp [ho, hr, hm]
      | some out =>
        simp only [ho, if_false, hr, hm]
        exact ⟨rfl, rfl, Or.inr ⟨out, rfl⟩⟩

theorem readFile_state (orc : Nat → Bool) (id : Nat) (st : FS) :
    (readFile orc id st).2 = st.tickInc := by
  unfold readFile
  by_cases ho : orc st.tick <;> simp [ho]

theorem readDir_state (orc : Nat → Bool) (id : Nat) (st : FS) :
    (readDir orc id st).2 = st.tickInc := by
  unfold readDir
  by_cases ho : orc st.tick <;> simp [ho]

theorem filter_cons_self {β : Type} (l : List (Nat × β)) (n : Nat) (b : β)
    (h : ∀ f ∈ l, f.1 < n) :
    ((n, b) :: l).filter (fun f => f.1 != n) = l := by
  simp only [List.filter_cons]
  have hne : (n != n) = false := by simp
  simp only [hne, Bool.false_eq_true, if_false]
  exact filter_fst_lt l n n h (le_refl _)

theorem cleanup_files_eq (ids : List Nat) (n : Nat)
    (l F cur : List (Nat × List Byte))
    (hlt : ∀ f ∈ l, f.1 < n)
    (hfil : l.filter (fun f => !(ids.contains f.1)) = F)
    (hcur : cur = l ∨ ∃ out, cur = (n, out) :: l) :
    (cur.filter (fun f => f.1 != n)).filter (fun f => !(ids.contains f.1)) = F := by
  rcases hcur with hsame | ⟨out, hcons⟩
  · rw [hsame, filter_fst_lt l n n hlt (le_refl _), hfil]
  · rw [hcons, filter_cons_self l n out hlt, hfil]

theorem convertToImage_frame (orc : Nat → Bool) (req : ConvertToImageRequest)
    (st : FS) (h : FsInv st) :
    (convertToImage orc req st).2.files = st.files ∧
    (convertToImage orc req st).2.dirs = st.dirs := by
  simp only [convertToImage]
  by_cases ho : orc st.tick
  · simp [createFile, ho]
  · simp [createFile, ho, removeFile, filter_cons_self st.files st.next req.PDFData h.1]

theorem extractText_frame (orc : Nat → Bool) (req : ExtractTextRequest)
    (st : FS) (h : FsInv st) :
    (extractText orc req st).2.files = st.files ∧
    (extractText orc req st).2.dirs = st.dirs := by
  simp only [extractText]
  by_cases ho : orc st.tick
  · simp [createFile, ho]
  · cases hp : parsePDF req.PDFData with
    | none =>
      simp [createFile, ho, hp, removeFile,
        filter_cons_self st.files st.next req.PDFData h.1]
    | some d =>
      simp [createFile, ho, hp, removeFile,
        filter_cons_self st.files st.next req.PDFData h.1]

theorem mergePDFs_frame (orc : Nat → Bool) (req : MergeRequest) (st : FS)
    (h : FsInv st) :
    (mergePDFs orc req st).2.files = st.files ∧
    (mergePDFs orc req st).2.dirs = st.dirs := by
  simp only [mergePDFs]
  by_cases hlen : req.PDFs.length < 2
  · simp [hlen]
  · rcases hca : createAllFiles orc req.PDFs (st.engineEvent "MergePDFs")
      with ⟨⟨ids, e⟩, st1⟩
    obtain ⟨hInv1, _, hdirs1, _, hfil1⟩ :=
      createAllFiles_spec orc req.PDFs _ ids e st1 (FsInv.engineEvent h _) hca
    rw [FS.engineEvent_files] at hfil1
    rw [FS.engineEvent_dirs] at hdirs1
    cases e with
    | some err =>
      refine ⟨?_, ?_⟩
      · simp only [hlen, if_false, hca, removeFiles_files]
        exact hfil1
      · simp only [hlen, if_false, hca, removeFiles_dirs]
        exact hdirs1
    | none =>
      obtain ⟨hld, _, hlf⟩ := libMerge_state orc ids st1.next st1.allocName
      simp only [FS.allocName_files, FS.allocName_dirs] at hld hlf
      rcases hlm : libMerge orc ids st1.next st1.allocName with ⟨lr, st2⟩
      rw [hlm] at hld hlf
      have hld2 : st2.dirs = st1.dirs := hld
      have hlf2 : st2.files = st1.files ∨
          ∃ out, st2.files = (st1.next, out) :: st1.files := hlf
      cases lr with
      | none =>
        refine ⟨?_, ?_⟩
        · simp only [hlen, if_false, hca, hlm, removeFiles_files, removeFile_files]
          exact cleanup_files_eq ids st1.next st1.files st.files st2.files
            hInv1.1 hfil1 hlf2
        · simp only [hlen, if_false, hca, hlm, removeFiles_dirs, removeFile_dirs]
          rw [hld2, hdirs1]
      | some u =>
        rcases hrd : readFile orc st1.next st2 with ⟨res, st3⟩
        have hst3 : st3 = st2.tickInc := by
          have := readFile_state orc st1.next st2
          rw [hrd] at this
          exact this
        have hf3 : st3.files = st2.files := by rw [hst3]; rfl
        have hd3 : st3.dirs = st2.dirs := by rw [hst3]; rfl
        cases res with
        | none =>
          refine ⟨?_, ?_⟩
          · simp only [hlen, if_false, hca, hlm, hrd, removeFiles_files,
              removeFile_files]
            exact cleanup_files_eq ids st1.next st1.files st.files st3.files
              hInv1.1 hfil1 (hf3 ▸ hlf2)
          · simp only [hlen, if_false, hca, hlm, hrd, removeFiles_dirs,
              removeFile_dirs]
            rw [hd3, hld2, hdirs1]
        | some data =>
          refine ⟨?_, ?_⟩
          · simp only [hlen, if_false, hca, hlm, hrd, removeFiles_files,
              removeFile_files]
            exact cleanup_files_eq ids st1.next st1.files st.files st3.files
              hInv1.1 hfil1 (hf3 ▸ hlf2)
          · simp only [hlen, if_false, hca, hlm, hrd, removeFiles_dirs,
              removeFile_dirs]
            rw [hd3, hld2, hdirs1]

theorem filter_self_idem {β : Type} (p : (Nat × β) → Bool) (L : List (Nat × β)) :
    (L.filter p).filter p = L.filter p := by
  rw [List.filter_filter]
  apply List.filter_congr
  intro a _
  exact Bool.and_self _

theorem cleanup_dir_eq (dir : Nat) (D : List (Nat × List (List Byte)))
    (cur : List (Nat × List (List Byte)))
    (hlt : ∀ d ∈ D, d.1 < dir)
    (hcur : cur = (dir, ([] : List (List Byte))) :: D ∨
      ∃ pages, cur = (dir, pages) ::
        ((dir, ([] : List (List Byte))) :: D).filter (fun d => d.1 != dir)) :
    cur.filter (fun d => d.1 != dir) = D := by
  have hbase : ((dir, ([] : List (List Byte))) :: D).filter (fun d => d.1 != dir) = D :=
    filter_cons_self D dir [] hlt
  rcases hcur with hc | ⟨pages, hc⟩
  · rw [hc]; exact hbase
  · rw [hc, hbase]
    exact filter_cons_self D dir pages hlt

theorem cleanup_two_files_eq (tf outId : Nat) (l F cur : List (Nat × List Byte))
    (d : List Byte)
    (hlt : ∀ f ∈ F, f.1 < tf)
    (hl : l = (tf, d) :: F)
    (houtgt : tf < outId)
    (hcur : cur = l ∨ ∃ out, cur = (outId, out) :: l) :
    (cur.filter (fun f => f.1 != outId)).filter (fun f => f.1 != tf) = F := by
  have hlflt : ∀ f ∈ l, f.1 < outId := by
    intro f hf
    rw [hl] at hf
    rcases List.mem_cons.mp hf with h1 | h2
    · rw [h1]
      exact houtgt
    · exact lt_trans (hlt f h2) houtgt
  have hstep : cur.filter (fun f => f.1 != outId) = l := by
    rcases hcur with hc | ⟨out, hc⟩
    · rw [hc]; exact filter_fst_lt l outId outId hlflt (le_refl _)
    · rw [hc]; exact filter_cons_self l outId out hlflt
  rw [hstep, hl]
  exact filter_cons_self F tf d hlt


theorem splitCore_state (orc : Nat → Bool) (tf dir : Nat) (st2 : FS) :
    (splitCore orc tf dir st2).2.files = st2.files.filter (fun f => f.1 != tf) ∧
    (splitCore orc tf dir st2).2.dirs = st2.dirs.filter (fun d => d.1 != dir) := by
  obtain ⟨hlsf, _, hlsd⟩ := libSplit_state orc tf dir st2
  simp only [splitCore]
  rcases hls : libSplit orc tf dir st2 with ⟨lr, st3⟩
  rw [hls] at hlsf hlsd
  have hlsf2 : st3.files = st2.files := hlsf
  have hdirs : st3.dirs.filter (fun d => d.1 != dir) =
      st2.dirs.filter (fun d => d.1 != dir) := by
    rcases hlsd with hc | ⟨pages, hc⟩
    · rw [show st3.dirs = st2.dirs from hc]
    · rw [show st3.dirs = (dir, pages) :: st2.dirs.filter (fun d => d.1 != dir)
        from hc]
      simp only [List.filter_cons]
      have hne : (dir != dir) = false := by simp
      simp only [hne, Bool.false_eq_true, if_false]
      exact filter_self_idem _ _
  cases lr with
  | none =>
    simp only [hls]
    exact ⟨by simp [hlsf2], by simp [hdirs]⟩
  | some u =>
    simp only [hls]
    rcases hrd : readDir orc dir st3 with ⟨res, st4⟩
    have hst4 : st4 = st3.tickInc := by
      have hx := readDir_state orc dir st3
      rw [hrd] at hx
      exact hx
    have hf4 : st4.files = st3.files := by rw [hst4]; rfl
    have hd4 : st4.dirs = st3.dirs := by rw [hst4]; rfl
    cases res with
    | none =>
      simp only [hrd]
      exact ⟨by simp [hf4, hlsf2], by simp [hd4, hdirs]⟩
    | some blobs =>
      simp only [hrd]
      exact ⟨by simp [hf4, hlsf2], by simp [hd4, hdirs]⟩

theorem splitCore_files (orc : Nat → Bool) (tf dir : Nat) (st2 : FS) :
    (splitCore orc tf dir st2).2.files =
      st2.files.filter (fun f => f.1 != tf) :=
  (splitCore_state orc tf dir st2).1

theorem splitCore_dirs (orc : Nat → Bool) (tf dir : Nat) (st2 : FS) :
    (splitCore orc tf dir st2).2.dirs =
      st2.dirs.filter (fun d => d.1 != dir) :=
  (splitCore_state orc tf dir st2).2

theorem compressCore_state (orc : Nat → Bool) (tf outId : Nat) (st2 : FS) :
    (compressCore orc tf outId st2).2.files =
      (st2.files.filter (fun f => f.1 != outId)).filter (fun f => f.1 != tf) ∧
    (compressCore orc tf outId st2).2.dirs = st2.dirs := by
  obtain ⟨hld, _, hlf⟩ := libOptimize_state orc tf outId st2
  simp only [compressCore]
  rcases hlo : libOptimize orc tf outId st2 with ⟨lr, st3⟩
  rw [hlo] at hld hlf
  have hld2 : st3.dirs = st2.dirs := hld
  have hfiles : st3.files.filter (fun f => f.1 != outId) =
      st2.files.filter (fun f => f.1 != outId) := by
    rcases hlf with hc | ⟨out, hc⟩
    · rw [show st3.files = st2.files from hc]
    · rw [show st3.files = (outId, out) :: st2.files from hc]
      simp only [List.filter_cons]
      have hne : (outId != outId) = false := by simp
      simp only [hne, Bool.false_eq_true, if_false]
  cases lr with
  | none =>
    simp only [hlo]
    exact ⟨by simp [hfiles], by simp [hld2]⟩
  | some u =>
    simp only [hlo]
    rcases hrd : readFile orc outId st3 with ⟨res, st4⟩
    have hst4 : st4 = st3.tickInc := by
      have hx := readFile_state orc outId st3
      rw [hrd] at hx
      exact hx
    have hf4 : st4.files = st3.files := by rw [hst4]; rfl
    have hd4 : st4.dirs = st3.dirs := by rw [hst4]; rfl
    cases res with
    | none =>
      simp only [hrd]
      exact ⟨by simp [hf4, hfiles], by simp [hd4, hld2]⟩
    | some data =>
      simp only [hrd]
      exact ⟨by simp [hf4, hfiles], by simp [hd4, hld2]⟩

theorem compressCore_files (orc : Nat → Bool) (tf outId : Nat) (st2 : FS) :
    (compressCore orc tf outId st2).2.files =
      (st2.files.filter (fun f => f.1 != outId)).filter (fun f => f.1 != tf) :=
  (compressCore_state orc tf outId st2).1

theorem compressCore_dirs (orc : Nat → Bool) (tf outId : Nat) (st2 : FS) :
    (compressCore orc tf outId st2).2.dirs = st2.dirs :=
  (compressCore_state orc tf outId st2).2

theorem watermarkCore_state (orc : Nat → Bool) (text : List Byte)
    (tf outId : Nat) (st2 : FS) :
    (watermarkCore orc text tf outId st2).2.files =
      (st2.files.filter (fun f => f.1 != outId)).filter (fun f => f.1 != tf) ∧
    (watermarkCore orc text tf outId st2).2.dirs = st2.dirs := by
  simp only [watermarkCore]
  cases hpw : parseWatermark text with
  | none => exact ⟨rfl, rfl⟩
  | some wm =>
    obtain ⟨hld, _, hlf⟩ := libWatermark_state orc wm tf outId st2
    rcases hlw : libWatermark orc wm tf outId st2 with ⟨lr, st3⟩
    rw [hlw] at hld hlf
    have hld2 : st3.dirs = st2.dirs := hld
    have hfiles : st3.files.filter (fun f => f.1 != outId) =
        st2.files.filter (fun f => f.1 != outId) := by
      rcases hlf with hc | ⟨out, hc⟩
      · rw [show st3.files = st2.files from hc]
      · rw [show st3.files = (outId, out) :: st2.files from hc]
        simp only [List.filter_cons]
        have hne : (outId != outId) = false := by simp
        simp only [hne, Bool.false_eq_true, if_false]
    cases lr with
    | none =>
      simp only [hlw]
      exact ⟨by simp [hfiles], by simp [hld2]⟩
    | some u =>
      simp only [hlw]
      rcases hrd : readFile orc outId st3 with ⟨res, st4⟩
      have hst4 : st4 = st3.tickInc := by
        have hx := readFile_state orc outId st3
        rw [hrd] at hx
        exact hx
      have hf4 : st4.files = st3.files := by rw [hst4]; rfl
      have hd4 : st4.dirs = st3.dirs := by rw [hst4]; rfl
      cases res with
      | none =>
        simp only [hrd]
        exact ⟨by simp [hf4, hfiles], by simp [hd4, hld2]⟩
      | some data =>
        simp only [hrd]
        exact ⟨by simp [hf4, hfiles], by simp [hd4, hld2]⟩

theorem watermarkCore_files (orc : Nat → Bool) (text : List Byte)
    (tf outId : Nat) (st2 : FS) :
    (watermarkCore orc text tf outId st2).2.files =
      (st2.files.filter (fun f => f.1 != outId)).filter (fun f => f.1 != tf) :=
  (watermarkCore_state orc text tf outId st2).1

theorem watermarkCore_dirs (orc : Nat → Bool) (text : List Byte)
    (tf outId : Nat) (st2 : FS) :
    (watermarkCore orc text tf outId st2).2.dirs = st2.dirs :=
  (watermarkCore_state orc text tf outId st2).2

theorem splitPDF_frame (orc : Nat → Bool) (req : SplitRequest) (st : FS)
    (h : FsInv st) :
    (splitPDF orc req st).2.files = st.files ∧
    (splitPDF orc req st).2.dirs = st.dirs := by
  have hdlt : ∀ d ∈ st.dirs, d.1 < st.next + 1 :=
    fun d hd => Nat.lt_succ_of_lt (h.2 d hd)
  simp only [splitPDF]
  by_cases ho : orc st.tick
  · simp [createFile, ho]
  · by_cases ho2 : orc (st.tick + 1)
    · simp [createFile, createDir, ho, ho2, removeFile,
        filter_cons_self st.files st.next req.PDFData h.1]
    · simp [createFile, createDir, ho, ho2, splitCore_files, splitCore_dirs,
        filter_cons_self st.files st.next req.PDFData h.1,
        filter_cons_self st.dirs (st.next + 1) [] hdlt]

theorem compressPDF_frame (orc : Nat → Bool) (req : CompressRequest) (st : FS)
    (h : FsInv st) :
    (compressPDF orc req st).2.files = st.files ∧
    (compressPDF orc req st).2.dirs = st.dirs := by
  have hlist : ∀ f ∈ (st.next, req.PDFData) :: st.files, f.1 < st.next + 1 := by
    intro f hf
    rcases List.mem_cons.mp hf with h1 | h2
    · rw [h1]; exact Nat.lt_succ_self _
    · exact Nat.lt_succ_of_lt (h.1 f h2)
  simp only [compressPDF]
  by_cases ho : orc st.tick
  · simp [createFile, ho]
  · simp [createFile, ho, compressCore_files, compressCore_dirs,
      filter_fst_lt ((st.next, req.PDFData) :: st.files) (st.next + 1)
        (st.next + 1) hlist (le_refl _),
      filter_cons_self st.files st.next req.PDFData h.1]

theorem addWatermark_frame (orc : Nat → Bool) (req : WatermarkRequest) (st : FS)
    (h : FsInv st) :
    (addWatermark orc req st).2.files = st.files ∧
    (addWatermark orc req st).2.dirs = st.dirs := by
  have hlist : ∀ f ∈ (st.next, req.PDFData) :: st.files, f.1 < st.next + 1 := by
    intro f hf
    rcases List.mem_cons.mp hf with h1 | h2
    · rw [h1]; exact Nat.lt_succ_self _
    · exact Nat.lt_succ_of_lt (h.1 f h2)
  simp only [addWatermark]
  by_cases ho : orc st.tick
  · simp [createFile, ho]
  · simp [createFile, ho, watermarkCore_files, watermarkCore_dirs,
      filter_fst_lt ((st.next, req.PDFData) :: st.files) (st.next + 1)
        (st.next + 1) hlist (le_refl _),
      filter_cons_self st.files st.next req.PDFData h.1]

/-! ## Claim theorems -/

/-- Claim C5: every scratch file and scratch directory created during one
operation (MergePDFs, SplitPDF, ExtractText, CompressPDF, AddWatermark,
ConvertToImage) is removed by the time the operation returns, on every
exit path — normal return and every error return (all failure oracles) —
so the temp directory contents (scratch files and scratch directories)
after the operation equal its contents before. -/
theorem c5_scratch_cleanup (orc : Nat → Bool) (st : FS) (h : FsInv st)
    (mreq : MergeRequest) (sreq : SplitRequest) (treq : ExtractTextRequest)
    (creq : CompressRequest) (wreq : WatermarkRequest)
    (ireq : ConvertToImageRequest) :
    ((mergePDFs orc mreq st).2.files = st.files ∧
      (mergePDFs orc mreq st).2.dirs = st.dirs) ∧
    ((splitPDF orc sreq st).2.files = st.files ∧
      (splitPDF orc sreq st).2.dirs = st.dirs) ∧
    ((extractText orc treq st).2.files = st.files ∧
      (extractText orc treq st).2.dirs = st.dirs) ∧
    ((compressPDF orc creq st).2.files = st.files ∧
      (compressPDF orc creq st).2.dirs = st.dirs) ∧
    ((addWatermark orc wreq st).2.files = st.files ∧
      (addWatermark orc wreq st).2.dirs = st.dirs) ∧
    ((convertToImage orc ireq st).2.files = st.files ∧
      (convertToImage orc ireq st).2.dirs = st.dirs) :=
  ⟨mergePDFs_frame orc mreq st h, splitPDF_frame orc sreq st h,
   extractText_frame orc treq st h, compressPDF_frame orc creq st h,
   addWatermark_frame orc wreq st h, convertToImage_frame orc ireq st h⟩

/-- Witness for C5 at a concrete state and concrete requests. -/
theorem c5_scratch_cleanup_witness :
    FsInv FS.empty ∧
    ((mergePDFs noFail ⟨[encodePDF docOnePage, encodePDF docTwoPages], ""⟩
        FS.empty).2.files = FS.empty.files ∧
      (mergePDFs noFail ⟨[encodePDF docOnePage, encodePDF docTwoPages], ""⟩
        FS.empty).2.dirs = FS.empty.dirs) :=
  ⟨by decide,
    (c5_scratch_cleanup noFail FS.empty (by decide)
      ⟨[encodePDF docOnePage, encodePDF docTwoPages], ""⟩
      ⟨encodePDF docTwoPages, "all"⟩ ⟨encodePDF docTwoPages, false⟩
      ⟨encodePDF docTwoPages, 1⟩ ⟨encodePDF docTwoPages, [67], 45, 48⟩
      ⟨encodePDF docTwoPages, "png", 150, "", 0⟩).1⟩

/-- Claim C6: MergePDFs fails with the InsufficientInput category whenever
it is given fewer than 2 blobs (covering the empty and the singleton
list), enforced at the request boundary (handler) as well as inside the
engine before any transformation runs: the engine leaves the state
untouched apart from the span event, the handler does not reach the
engine at all. -/
theorem c6_merge_insufficient (orc : Nat → Bool) (blobs : List (List Byte))
    (name : String) (st : FS) (h : blobs.length < 2) :
    (mergePDFs orc ⟨blobs, name⟩ st).1 = .error .insufficientInput ∧
    (mergePDFs orc ⟨blobs, name⟩ st).2 = st.engineEvent "MergePDFs" ∧
    (mergeHandler orc blobs st).1 = .badRequest .insufficientInput ∧
    (mergeHandler orc blobs st).2 = st := by
  refine ⟨?_, ?_, ?_, ?_⟩ <;> simp [mergePDFs, mergeHandler, h]

/-- Witness for C6 at the empty list and at a singleton list. -/
theorem c6_merge_insufficient_witness :
    (([] : List (List Byte)).length < 2 ∧
      (mergePDFs noFail ⟨[], ""⟩ FS.empty).1 = .error .insufficientInput) ∧
    ([encodePDF docOnePage].length < 2 ∧
      (mergePDFs noFail ⟨[encodePDF docOnePage], ""⟩ FS.empty).1 =
        .error .insufficientInput) :=
  ⟨⟨by decide, (c6_merge_insufficient noFail [] "" FS.empty (by decide)).1⟩,
   ⟨by decide,
    (c6_merge_insufficient noFail [encodePDF docOnePage] "" FS.empty
      (by decide)).1⟩⟩

/-- Claim C7 (code bug evidence): ExtractMetadata does not return the
actual information dictionary field values — on a document whose info
dictionary has title X (byte 88) and author Y (byte 89) it returns the
hardcoded placeholders Document Title and Document Author, and it never
fills subject, creator, producer or the dates.  The page count, file
size and encrypted flag are the only faithful fields. -/
theorem c7_metadata_placeholder :
    extractMetadata (encodePDF docWithInfo) =
      .ok ⟨docTitlePlaceholder, docAuthorPlaceholder, [], [], [], [], [], 1,
        (encodePDF docWithInfo).length, false⟩ ∧
    docWithInfo.info = some ⟨[88], [89], [], [], [], [], []⟩ ∧
    docTitlePlaceholder ≠ [88] ∧ docAuthorPlaceholder ≠ [89] :=
  ⟨rfl, rfl, by decide, by decide⟩

/-- Claim C8 (code bug evidence): ConvertToImage never rasterizes — on a
readable one-page PDF with a supported format it returns zero image
blobs and page count 0 instead of one image per page, and on an
unsupported format it still succeeds instead of failing with
ConversionFailed. -/
theorem c8_convert_unimplemented :
    (convertToImage noFail ⟨encodePDF docOnePage, "png", 150, "", 0⟩
        FS.empty).1 = .ok ⟨[], 0, "png"⟩ ∧
    docOnePage.pages.length = 1 ∧
    (convertToImage noFail ⟨encodePDF docOnePage, "bogus", 150, "", 0⟩
        FS.empty).1 = .ok ⟨[], 0, "bogus"⟩ :=
  ⟨rfl, rfl, rfl⟩

/-- Claim C9: the SplitPDF result does not depend on the PageRange
parameter — for every input PDF, any two page-range strings, any oracle
and any state, the service call and the handler call return identical
results (the parameter is read only for logging, which the embedding
does not model as data). -/
theorem c9_split_range_noninterference (orc : Nat → Bool) (pdf : List Byte)
    (r1 r2 : String) (st : FS) :
    splitPDF orc ⟨pdf, r1⟩ st = splitPDF orc ⟨pdf, r2⟩ st ∧
    splitHandler orc pdf r1 st = splitHandler orc pdf r2 st :=
  ⟨rfl, rfl⟩

/-- Claim C10: the CompressPDF result does not depend on the
CompressionLevel parameter — for every input PDF, any two levels, any
oracle and any state, the service call and the handler call return
identical results (the level reaches only the span attribute and the
log line, never the optimization routine). -/
theorem c10_compress_level_noninterference (orc : Nat → Bool)
    (pdf : List Byte) (l1 l2 : Int) (st : FS) :
    compressPDF orc ⟨pdf, l1⟩ st = compressPDF orc ⟨pdf, l2⟩ st ∧
    compressHandler orc pdf l1 st = compressHandler orc pdf l2 st :=
  ⟨rfl, rfl⟩

/-- Claim C2 counterexample: a structurally valid two-page document under
a configuration with page ceiling 1 passes `ValidateRequest`, although
the claim requires a TooManyPages failure whenever the parsed page count
exceeds the ceiling — the source performs no page-count check at all. -/
theorem c2_no_page_count_check :
    validateRequest cfgOnePage (encodePDF docTwoPages) = none ∧
    pdfPageCount (encodePDF docTwoPages) = some 2 ∧
    cfgOnePage.maxPages < 2 ∧
    (encodePDF docTwoPages).length ≠ 0 ∧
    ((encodePDF docTwoPages).length : Int) ≤ cfgOnePage.maxFileSize := by
  refine ⟨rfl, rfl, by decide, by decide, by decide⟩

/-- Claim C2 (amended): ValidateRequest fails if and only if the blob is
empty, or its length exceeds the size ceiling, or its first four bytes
are not the %PDF signature — there is no page-count condition — and each
of the three failure causes yields its distinct error category, checked
in that order. -/
theorem c2_validate_characterisation (cfg : PDFConfig) (b : List Byte) :
    (validateRequest cfg b = some .emptyInput ↔ b.length = 0) ∧
    (validateRequest cfg b = some .tooLarge ↔
      b.length ≠ 0 ∧ (b.length : Int) > cfg.maxFileSize) ∧
    (validateRequest cfg b = some .invalidFormat ↔
      b.length ≠ 0 ∧ (b.length : Int) ≤ cfg.maxFileSize ∧
      (b.length < 4 ∨ b.take 4 ≠ pdfMagic)) ∧
    (validateRequest cfg b = none ↔
      b.length ≠ 0 ∧ (b.length : Int) ≤ cfg.maxFileSize ∧
      4 ≤ b.length ∧ b.take 4 = pdfMagic) := by
  unfold validateRequest
  split_ifs with h1 h2 h3
  · simp [h1]
  · refine ⟨by simp [h1], by simp [h1, h2], by simp [not_le.mpr h2],
      by simp [not_le.mpr h2]⟩
  · refine ⟨by simp [h1], by simp [h2], by simp [h1, not_lt.mp h2, h3], ?_⟩
    apply iff_of_false (by simp)
    rintro ⟨-, -, h5, h6⟩
    rcases h3 with h4 | h4
    · omega
    · exact h4 h6
  · push_neg at h3
    refine ⟨by simp [h1], by simp [h2], by simp [not_lt.mpr h3.1, h3.2],
      by simp [h1, not_lt.mp h2, h3.1, h3.2]⟩

/-- Claim C3: for every valid PDF, SplitPDF with page range all returns
exactly one output blob per page of the source — the i-th output blob is
the single-page document holding page i — ordered by ascending page
number, and the number of outputs equals the page count. -/
theorem c3_split_one_blob_per_page (d : PDFDoc) :
    (splitPDF noFail ⟨encodePDF d, "all"⟩ FS.empty).1 =
      .ok (d.pages.map fun p => encodePDF ⟨[p], none, false⟩) ∧
    (d.pages.map fun p => encodePDF ⟨[p], none, false⟩).length =
      d.pages.length := by
  constructor
  · simp [splitPDF, createFile, createDir, splitCore, libSplit, lookupFile,
      splitSem, parse_encode, readDir, lookupDir, FS.setDir, noFail, FS.empty,
      FS.engineEvent, FS.tickInc]
  · simp

/-- Claim C1: MergePDFs on two valid multi-page blobs succeeds with a
document whose page list is the concatenation of the two page lists in
input order (no reordering, no deduplication), so its page count is the
sum of the two page counts. -/
theorem c1_merge_concatenates_pages (A B : PDFDoc)
    (hA : 2 ≤ A.pages.length) (hB : 2 ≤ B.pages.length) :
    (mergePDFs noFail ⟨[encodePDF A, encodePDF B], ""⟩ FS.empty).1 =
      .ok (encodePDF ⟨A.pages ++ B.pages, none, false⟩) ∧
    pdfPageCount (encodePDF ⟨A.pages ++ B.pages, none, false⟩) =
      some (A.pages.length + B.pages.length) ∧
    (parsePDF (encodePDF ⟨A.pages ++ B.pages, none, false⟩)).map
        (fun d => d.pages) = some (A.pages ++ B.pages) := by
  refine ⟨?_, ?_, ?_⟩
  · simp [mergePDFs, createAllFiles, createFile, libMerge,
      libMerge.readAllFiles, lookupFile, mergeSem, parseAll, parse_encode,
      readFile, noFail, FS.empty, FS.engineEvent, FS.allocName, FS.addFile,
      FS.tickInc]
  · simp [pdfPageCount, parse_encode]
  · simp [parse_encode]

/-- Witness for C1 at two concrete multi-page documents. -/
theorem c1_merge_concatenates_pages_witness :
    (2 ≤ docThreePages.pages.length ∧ 2 ≤ docTwoPages.pages.length) ∧
    (mergePDFs noFail ⟨[encodePDF docThreePages, encodePDF docTwoPages], ""⟩
        FS.empty).1 =
      .ok (encodePDF ⟨docThreePages.pages ++ docTwoPages.pages, none, false⟩) :=
  ⟨⟨by decide, by decide⟩,
   (c1_merge_concatenates_pages docThreePages docTwoPages (by decide)
      (by decide)).1⟩

theorem parsePDF_none_of_bad_magic (b : List Byte) (h : b.take 4 ≠ pdfMagic) :
    parsePDF b = none := by
  simp [parsePDF, h]

/-- Claim C4 counterexample: a GIF header submitted to the SplitPDF
endpoint creates a scratch file (and a scratch directory) — the trace
records the creations — and the request dies inside the Transform Engine
with a split failure, not at a validation gate with InvalidFormat.  The
claim that no scratch resource is ever created for a non-PDF input is
false for this endpoint. -/
theorem c4_split_creates_scratch_for_gif :
    gifBytes.take 4 ≠ pdfMagic ∧
    FsEvent.createdFile 0 ∈ (splitHandler noFail gifBytes "all" FS.empty).2.events ∧
    FsEvent.createdDir 1 ∈ (splitHandler noFail gifBytes "all" FS.empty).2.events ∧
    (splitHandler noFail gifBytes "all" FS.empty).1 =
      HandlerOut.serverError .splitFailed := by decide

/-- Claim C4 (amended): only the ConvertToImage endpoint validates at the
boundary: for every byte sequence not starting with %PDF it fails
validation before any Transform Engine call, leaving the state untouched
(no scratch file, no scratch directory, no engine span), and the failure
category is InvalidFormat whenever the blob is nonempty and within the
size ceiling (EmptyInput and TooLarge take precedence).  The Split,
Merge, Compress, ExtractText and Watermark endpoints perform no
signature validation: absent injected failures they enter the engine and
create a scratch file (Split also a scratch directory) before the
transform fails.  The ExtractMetadata endpoint performs no validation
either but touches no scratch resource; it fails inside the engine. -/
theorem c4_only_convert_validates (orc : Nat → Bool) (cfg : PDFConfig)
    (blob : List Byte) (format pages : String) (dpi level : Int)
    (text : List Byte) (ocr : Bool) (st : FS)
    (hmagic : blob.take 4 ≠ pdfMagic) (htext : text ≠ []) :
    ((∃ e, validateRequest cfg blob = some e ∧
        convertHandler orc cfg blob format dpi st =
          (.badRequest (.validation e), st)) ∧
      (blob ≠ [] → (blob.length : Int) ≤ cfg.maxFileSize →
        validateRequest cfg blob = some .invalidFormat)) ∧
    ((splitHandler noFail blob pages st).2.events =
        st.events ++ [.engine "SplitPDF", .createdFile st.next,
          .createdDir (st.next + 1)] ∧
      (splitHandler noFail blob pages st).1 = .serverError .splitFailed) ∧
    ((mergeHandler noFail [blob, blob] st).2.events =
        st.events ++ [.engine "MergePDFs", .createdFile st.next,
          .createdFile (st.next + 1)] ∧
      (mergeHandler noFail [blob, blob] st).1 = .serverError .mergeFailed) ∧
    ((compressHandler noFail blob level st).2.events =
        st.events ++ [.engine "CompressPDF", .createdFile st.next] ∧
      (compressHandler noFail blob level st).1 =
        .serverError .compressFailed) ∧
    ((extractTextHandler noFail blob ocr st).2.events =
        st.events ++ [.engine "ExtractText", .createdFile st.next] ∧
      (extractTextHandler noFail blob ocr st).1 =
        .serverError .readContextFailed) ∧
    ((watermarkHandler noFail blob text st).2.events =
        st.events ++ [.engine "AddWatermark", .createdFile st.next] ∧
      (watermarkHandler noFail blob text st).1 =
        .serverError .watermarkFailed) ∧
    extractMetadataHandler blob st = (.serverError .readContextFailed, st) := by
  have hpn : parsePDF blob = none := parsePDF_none_of_bad_magic blob hmagic
  have hb1 : (st.next + 1 == st.next) = false := by simp
  refine ⟨⟨?_, ?_⟩, ⟨?_, ?_⟩, ⟨?_, ?_⟩, ⟨?_, ?_⟩, ⟨?_, ?_⟩, ⟨?_, ?_⟩, ?_⟩
  · have hval : ∃ e, validateRequest cfg blob = some e := by
      unfold validateRequest
      split_ifs with h1 h2 h3
      · exact ⟨_, rfl⟩
      · exact ⟨_, rfl⟩
      · exact ⟨_, rfl⟩
      · exact absurd (Or.inr hmagic) h3
    obtain ⟨e, he⟩ := hval
    exact ⟨e, he, by simp [convertHandler, he]⟩
  · intro hne hle
    unfold validateRequest
    rw [if_neg (by simpa [List.length_eq_zero] using hne),
      if_neg (not_lt.mpr hle), if_pos (Or.inr hmagic)]
  · simp [splitHandler, splitPDF, createFile, createDir, splitCore, libSplit,
      lookupFile, splitSem, hpn, noFail, removeFile, removeDir, FS.engineEvent,
      FS.tickInc, FS.setDir]
  · simp [splitHandler, splitPDF, createFile, createDir, splitCore, libSplit,
      lookupFile, splitSem, hpn, noFail, removeFile, removeDir, FS.engineEvent,
      FS.tickInc, FS.setDir]
  · simp [mergeHandler, mergePDFs, createAllFiles, createFile, libMerge,
      libMerge.readAllFiles, lookupFile, mergeSem, parseAll, hpn, hb1, noFail,
      removeFiles, removeFile, FS.engineEvent, FS.allocName, FS.tickInc]
  · simp [mergeHandler, mergePDFs, createAllFiles, createFile, libMerge,
      libMerge.readAllFiles, lookupFile, mergeSem, parseAll, hpn, hb1, noFail,
      removeFiles, removeFile, FS.engineEvent, FS.allocName, FS.tickInc]
  · simp [compressHandler, compressPDF, createFile, compressCore, libOptimize,
      lookupFile, optimizeSem, hpn, noFail, removeFile, FS.engineEvent,
      FS.allocName, FS.tickInc]
  · simp [compressHandler, compressPDF, createFile, compressCore, libOptimize,
      lookupFile, optimizeSem, hpn, noFail, removeFile, FS.engineEvent,
      FS.allocName, FS.tickInc]
  · simp [extractTextHandler, extractText, createFile, hpn, noFail, removeFile,
      FS.engineEvent, FS.tickInc]
  · simp [extractTextHandler, extractText, createFile, hpn, noFail, removeFile,
      FS.engineEvent, FS.tickInc]
  · simp [watermarkHandler, addWatermark, createFile, watermarkCore,
      parseWatermark, htext, libWatermark, lookupFile, watermarkSem, hpn,
      noFail, removeFile, FS.engineEvent, FS.allocName, FS.tickInc]
  · simp [watermarkHandler, addWatermark, createFile, watermarkCore,
      parseWatermark, htext, libWatermark, lookupFile, watermarkSem, hpn,
      noFail, removeFile, FS.engineEvent, FS.allocName, FS.tickInc]
  · simp [extractMetadataHandler, extractMetadata, hpn]

/-- Witness for C4 (amended) at the GIF header bytes. -/
theorem c4_only_convert_validates_witness :
    (gifBytes.take 4 ≠ pdfMagic ∧ ([67] : List Byte) ≠ []) ∧
    (splitHandler noFail gifBytes "all" FS.empty).1 =
      .serverError .splitFailed :=
  ⟨⟨by decide, by decide⟩,
   (c4_only_convert_validates noFail ⟨1000, 100⟩ gifBytes "png" "all" 150 1
      [67] false FS.empty (by decide) (by decide)).2.1.2⟩
